import Mathlib

/-!
# hstratum — verification of the connection/job/share engine

Shallow embedding of the core of `lib/primitives.js` (classes `Connection`,
`ClientPacket`, `Submission`, `Job`), `lib/util.js` and `lib/constants.js`
from the hstratum repository, together with proofs settling the frozen
claims about the natural-language specification.

Modelling conventions:
* JS strings are Lean `String`s (the `StringDecoder` utf8 byte/char boundary
  handling is not modelled; `feed` receives already-decoded text).
* JS numbers are `ℚ` where the code performs divisions (difficulty
  arithmetic) and `ℕ`/`ℤ` where the code treats them as integers
  (counters, millisecond clocks).  The one bit-level operation, `>>> 0`
  (ToUint32), is modelled explicitly as truncation toward zero followed by
  `% 2^32`.
* `assert(cond, msg)` failures (thrown exceptions) are modelled with
  `Except String`.
* External collaborators (the hsd work template `attempt`, `JSON.parse`,
  the BLAKE2b leaf hash) are abstracted as parameters; everything the
  claims quantify over is translated from the repository source.
-/

namespace Hstratum

/-! ## constants.js -/

/-- Model of `constants.NONCE_SIZE = 4` (lib/constants.js). -/
def NONCE_SIZE : ℕ := 4

/-! ## util.js -/

namespace util

/-- Model of `util.isUsername` (util.js): a string of length 1..100.
The `typeof username !== "string"` guard is handled at the call sites,
where a non-string JS value never reaches this string-typed check. -/
def isUsername (s : String) : Bool :=
  0 < s.length && s.length ≤ 100

/-- Model of `util.isJob` (util.js): a string of length 12..21. -/
def isJob (s : String) : Bool :=
  12 ≤ s.length && s.length ≤ 21

/-- Model of `/^[0-9a-f]$/i.test(s)` — the regex used by `util.isHex`.  The pattern
is anchored on both sides and contains exactly one character class, so it
matches precisely the one-character strings whose character is a hex digit
(case-insensitive). -/
def reHexSingle (s : String) : Bool :=
  match s.data with
  | [c] =>
    ('0' ≤ c && c ≤ '9') || ('a' ≤ c && c ≤ 'f') || ('A' ≤ c && c ≤ 'F')
  | _ => false

/-- Model of `util.isHex` (util.js, lines 52-56):
`typeof str === "string" && str.length % 2 === 0 && /^[0-9a-f]$/i.test(str)`. -/
def isHex (s : String) : Bool :=
  s.length % 2 == 0 && reHexSingle s

/-- Model of `util.isSID` (util.js): a string of length 8 that passes `util.isHex`. -/
def isSID (s : String) : Bool :=
  s.length == 8 && isHex s

end util

/-- The format constraint the specification itself places on a hex field:
every character is a hexadecimal digit (case-insensitive) and the string is
non-empty.  Modelled from the spec's words ("hex, exactly `NONCE_SIZE*2`
hex digits"), to be compared with the source's `util.isHex`. -/
def specHex (s : String) : Bool :=
  !s.data.isEmpty && s.data.all (fun c =>
    ('0' ≤ c && c ≤ '9') || ('a' ≤ c && c ≤ 'f') || ('A' ≤ c && c ≤ 'F'))

/-! ## Submission (primitives.js lines 414-470) -/

/-- A JS value appearing in a `params` array: a string, a number, or
anything else (object, null, boolean, ...).  The decoder only ever
distinguishes strings from non-strings. -/
inductive JSParam where
  | str (s : String)
  | num (q : ℚ)
  | other
deriving DecidableEq

/-- The parsed `Submission` record (primitives.js lines 419-425 and
462-466): `nonce2` and `ts` are stored through `parseInt(_, 16)`, the
primary nonce is kept as the raw hex string. -/
structure Submission where
  username : String
  job : String
  nonce2 : ℕ
  ts : ℕ
  nonce : String
deriving DecidableEq

/-- Hexadecimal digit value of a character (by code point: digits 48-57,
lowercase 97-102, uppercase 65-70), `none` when not a hex digit. -/
def hexDigitVal (c : Char) : Option ℕ :=
  let n := c.toNat
  if 48 ≤ n ∧ n ≤ 57 then some (n - 48)
  else if 97 ≤ n ∧ n ≤ 102 then some (n - 87)
  else if 65 ≤ n ∧ n ≤ 70 then some (n - 55)
  else none

/-- Model of `parseInt(s, 16)` on a string that starts with hex digits: accumulate
digits until the first non-digit character (the prefix-parsing behaviour
of `parseInt`; sign/whitespace/`0x` handling never matters at the call
sites, which only pass validated hex strings). -/
def parseHexNat : List Char → ℕ → ℕ
  | [], acc => acc
  | c :: rest, acc =>
    match hexDigitVal c with
    | some v => parseHexNat rest (acc * 16 + v)
    | none => acc

/-- Model of `Submission.fromPacket(msg)` (primitives.js lines 427-469): the
second-stage decoder for `mining.submit` params.  Each `assert(cond, msg)`
of the source is an `Except.error msg`; the asserts run in source order.
The non-string cases reproduce the `typeof` checks (a non-string value
fails `util.isUsername`/`util.isJob`/`typeof === "string"` and raises the
same message).  The length assert on the primary nonce (line 450) is
commented out in the source and is therefore absent here. -/
def Submission.fromPacket (ps : List JSParam) : Except String Submission :=
  if ps.length < 5 then .error "Invalid parameters." else
  match ps.getD 0 .other with
  | .str u =>
    if !(util.isUsername u) then .error "Name must be a string." else
    match ps.getD 1 .other with
    | .str jb =>
      if !(util.isJob jb) then .error "Job ID must be a string." else
      match ps.getD 2 .other with
      | .str n2 =>
        if n2.length ≠ NONCE_SIZE * 2 then .error "Nonce2 must be a string." else
        if !(util.isHex n2) then .error "Nonce2 must be a string." else
        match ps.getD 3 .other with
        | .str t =>
          if t.length ≠ 8 then .error "Time must be a string." else
          if !(util.isHex t) then .error "Time must be a string." else
          match ps.getD 4 .other with
          | .str nn =>
            if !(util.isHex nn) then .error "Nonce must be a string." else
            .ok { username := u, job := jb,
                  nonce2 := parseHexNat n2.data 0,
                  ts := parseHexNat t.data 0,
                  nonce := nn }
          | _ => .error "Nonce must be a string."
        | _ => .error "Time must be a string."
      | _ => .error "Nonce2 must be a string."
    | _ => .error "Nonce2 must be a string."
  | _ => .error "Name must be a string."

/-! ## Job (primitives.js lines 476-566) -/

/-- A node `Buffer`, as a list of byte values. -/
abbrev ByteBuf := List ℕ

/-- Lowercase hexadecimal digit character for a value 0..15. -/
def hexChar (d : ℕ) : Char :=
  "0123456789abcdef".data.getD d '0'

/-- Model of `buf.toString("hex")`: two lowercase hex digits per byte. -/
def bufToHex (b : ByteBuf) : String :=
  ⟨b.foldr (fun x acc => hexChar (x / 16 % 16) :: hexChar (x % 16) :: acc) []⟩

/-- Hex digits of `n`, most significant first (`(n).toString(16)` without
the leading-zero case).  The first argument is fuel, always called with
`fuel = n ≥` the number of digits. -/
def toHexAux : ℕ → ℕ → List Char
  | 0, _ => []
  | fuel + 1, n => if n = 0 then [] else toHexAux fuel (n / 16) ++ [hexChar (n % 16)]

/-- Model of `num.toString(16)` for a non-negative integer. -/
def natToHex (n : ℕ) : String :=
  if n = 0 then "0" else ⟨toHexAux n n⟩

/-- Model of `util.hex32` (util.js lines 58-81): asserts `num >>> 0 === num`
(i.e. `num` is an integer in `[0, 2^32)`), renders it in hex and
left-pads to 8 digits by the `switch` on the digit count; the `switch`
default and a failed assert both throw, modelled as `none`. -/
def hex32 (n : ℕ) : Option String :=
  if n < 4294967296 then
    let s := natToHex n
    if 1 ≤ s.length ∧ s.length ≤ 8 then
      some (String.mk (List.replicate (8 - s.length) '0') ++ s)
    else none
  else none

/-- A JSON value appearing in the `mining.notify` params array.  The
wrapped work object's `tree.toJSON()` is an external hsd object and is
kept opaque (constructor `obj`). -/
inductive JVal where
  | str (s : String)
  | strList (l : List String)
  | obj (o : String)
  | bool (b : Bool)
deriving DecidableEq

/-- The fields of the upstream hsd block-template object (`attempt`) that
`Job` reads.  `items` holds, per coinbase-adjacent transaction item, the
transaction's canonical hash `d.tx.hash()` when `d.tx` is defined and
`none` otherwise (the `typeof d.tx != "undefined"` test of `toJSON`).
The template's methods (`refresh`, `getDifficulty`, `getProof`, `commit`)
belong to the external work source and are abstracted at their use sites. -/
structure Attempt where
  prevBlock : ByteBuf
  left : ByteBuf
  right : ByteBuf
  items : List (Option ByteBuf)
  treeJSON : JVal
  treeRoot : ByteBuf
  filterRoot : ByteBuf
  reservedRoot : ByteBuf
  version : ℕ
  bits : ℕ
  time : ℕ
deriving DecidableEq

/-- Model of `Job` (primitives.js lines 476-493).  `submissions` is the
`BufferSet` of already-seen submission fingerprints, modelled as a finite
set of opaque fingerprint values; `prev`/`next` list pointers are
bookkeeping of the live list and are not modelled. -/
structure Job where
  id : String
  attempt : Attempt
  target : ByteBuf
  difficulty : ℚ
  submissions : Finset ℕ
  committed : Bool
deriving DecidableEq

/-- Model of `Job.insert(hash)` (primitives.js lines 507-512): returns `false` if
the fingerprint was already recorded, otherwise records it and returns
`true`.  The updated job is returned alongside the boolean. -/
def Job.insert (j : Job) (hash : ℕ) : Bool × Job :=
  if hash ∈ j.submissions then (false, j)
  else (true, { j with submissions := Insert.insert hash j.submissions })

/-- Folding `Job.insert` over a list of fingerprints, keeping the final
job state: a run of `recordSubmission` calls in arrival order. -/
def Job.insertRun (j : Job) (ps : List ℕ) : Job :=
  ps.foldl (fun a p => (Job.insert a p).2) j

/-- Model of `Job.commit(share)` (primitives.js lines 522-526): asserts the job is
not yet committed, marks it committed, and delegates to the work source's
`attempt.commit` — abstracted as the parameter `attemptCommit`. -/
def Job.commit (attemptCommit : ℕ → ℕ) (j : Job) (share : ℕ) :
    Except String (Job × ℕ) :=
  if j.committed then .error "Already committed."
  else .ok ({ j with committed := true }, attemptCommit share)

/-- Model of `Job.toJSON()` (primitives.js lines 528-565): the ordered
`mining.notify` params array.  `hashLeaf` abstracts
`merkle.hashLeaf(BLAKE2b256, ·)` from hsd.  `util.hex32` throws on a
version/bits/time outside uint32 range, so serialization is `Option`;
the three calls are evaluated in array order. -/
def Job.toJSON (hashLeaf : ByteBuf → ByteBuf) (j : Job) : Option (List JVal) :=
  let itemTx := j.attempt.items.filterMap
    (fun o => o.map (fun h => bufToHex (hashLeaf h)))
  match hex32 j.attempt.version, hex32 j.attempt.bits, hex32 j.attempt.time with
  | some v, some b, some t =>
    some [.str j.id,
          .str (bufToHex j.attempt.prevBlock),
          .str (bufToHex j.attempt.left),
          .str (bufToHex j.attempt.right),
          .strList itemTx,
          j.attempt.treeJSON,
          .str (bufToHex j.attempt.treeRoot),
          .str (bufToHex j.attempt.filterRoot),
          .str (bufToHex j.attempt.reservedRoot),
          .str v,
          .str b,
          .str t,
          .bool false]
  | _, _, _ => none

/-- A concrete template object used by witnesses. -/
def attempt0 : Attempt :=
  { prevBlock := [], left := [], right := [], items := []
    treeJSON := .obj "steps", treeRoot := [], filterRoot := []
    reservedRoot := [], version := 0, bits := 0, time := 0 }

/-- A concrete fresh job used by witnesses. -/
def job0 : Job :=
  { id := "job0000000000", attempt := attempt0, target := []
    difficulty := 1000, submissions := ∅, committed := false }

/-! ## Connection (primitives.js lines 49-371) -/

/-- An outbound protocol message produced through `sendMethod` →
`send` → `write` (primitives.js lines 127-146, 287-307).  The JSON-RPC
serialization of the frame (`JSON.stringify` plus `"\n"`) is a builtin
and is not modelled; the method name and params are. -/
inductive OutMsg where
  | setDifficulty (d : ℚ)
  | notify (payload : List JVal)
deriving DecidableEq

/-- The `Connection` state (constructor, primitives.js lines 57-85),
restricted to the fields the modelled operations read or write.
`written` accumulates raw `write` output (the HTTP redirect), `sent` the
protocol messages passed to `send`, `packets` the raw lines emitted as
`"packet"` events, `errors` counts emitted `"error"` events.  `banScore`,
`lastBan`, `drainSize` (backpressure accounting), `users`, `sid`, `agent`
and the `prev`/`next` live-list pointers are not touched by any claim and
are omitted. -/
structure Connection where
  recv : String
  destroyed : Bool
  difficulty : ℚ
  nextDifficulty : ℚ
  submissions : ℕ
  lastRetarget : ℤ
  written : String
  sent : List OutMsg
  packets : List String
  errors : ℕ
deriving DecidableEq

/-- The fresh connection built by the constructor: empty buffers,
difficulty and pending difficulty at the `-1` sentinel, retarget clock at
`-1`, zero submissions. -/
def initConn : Connection :=
  { recv := "", destroyed := false, difficulty := -1, nextDifficulty := -1
    submissions := 0, lastRetarget := -1, written := "", sent := []
    packets := [], errors := 0 }

/-- Model of `Connection.destroy` (lines 115-125): terminal and idempotent; the
socket/locker teardown is external. -/
def Connection.destroy (c : Connection) : Connection :=
  if c.destroyed then c else { c with destroyed := true }

/-- Model of `Connection.write` (lines 136-146): a no-op on a destroyed
connection, otherwise appends the text to the outbound stream.  The
backpressure branch (`drainSize`, 5 MiB overflow) depends on the external
socket's return value and is not modelled. -/
def Connection.write (c : Connection) (text : String) : Connection :=
  if c.destroyed then c else { c with written := c.written ++ text }

/-- Model of `Connection.send`/`sendMethod` (lines 127-134, 287-295): a no-op on a
destroyed connection, otherwise appends the JSON-RPC message. -/
def Connection.sendMsg (c : Connection) (m : OutMsg) : Connection :=
  if c.destroyed then c else { c with sent := c.sent ++ [m] }

/-- Model of `Connection.error` (lines 148-162): a no-op on a destroyed
connection, otherwise emits an `"error"` event. -/
def Connection.errorEvent (c : Connection) : Connection :=
  if c.destroyed then c else { c with errors := c.errors + 1 }

/-- Model of `Connection.setDifficulty` (lines 309-311): stage a pending
difficulty. -/
def Connection.setDifficulty (c : Connection) (d : ℚ) : Connection :=
  { c with nextDifficulty := d }

/-- Model of `Connection.sendDifficulty` (lines 297-307):
`assert(difficulty > 0, "Difficulty must be at least 1.")`, then send the
`mining.set_difficulty` message. -/
def Connection.sendDifficulty (c : Connection) (d : ℚ) : Except String Connection :=
  if 0 < d then .ok (Connection.sendMsg c (.setDifficulty d))
  else .error "Difficulty must be at least 1."

/-- Model of `Connection.sendJob(job)` (lines 313-325): if a pending difficulty is
staged (`nextDifficulty !== -1`), reset the submission counter, reset the
retarget clock to the current time, flush the pending difficulty, make it
current and clear the pending slot; then send `mining.notify` with
`job.toJSON()` (evaluated after the flush block, and throwing out of
`sendJob` if `util.hex32` rejects a field). -/
def Connection.sendJob (hashLeaf : ByteBuf → ByteBuf) (c : Connection)
    (now : ℤ) (j : Job) : Except String Connection :=
  if c.nextDifficulty ≠ -1 then
    let c1 := { c with submissions := 0, lastRetarget := now }
    match Connection.sendDifficulty c1 c.nextDifficulty with
    | .error e => .error e
    | .ok c2 =>
      let c3 := { c2 with difficulty := c.nextDifficulty, nextDifficulty := -1 }
      match Job.toJSON hashLeaf j with
      | some payload => .ok (Connection.sendMsg c3 (.notify payload))
      | none => .error "hex32: value out of range"
  else
    match Job.toJSON hashLeaf j with
    | some payload => .ok (Connection.sendMsg c (.notify payload))
    | none => .error "hex32: value out of range"

/-- Truncation toward zero of a rational: the integer-conversion step of
ECMAScript ToUint32. -/
def jsTrunc (q : ℚ) : ℤ :=
  if q < 0 then -(⌊-q⌋) else ⌊q⌋

/-- Model of `x >>> 0` (ToUint32) on a finite non-NaN number: truncate toward
zero, then reduce modulo `2^32` into `[0, 2^32)`. -/
def jsToUint32 (q : ℚ) : ℕ :=
  ((jsTrunc q) % 4294967296).toNat

/-- Model of `Connection.retarget(max)` (lines 327-362).  `pm` is
`SHARES_PER_MINUTE`, a configuration constant imported from the server
module, kept as a parameter.  The two leading `assert`s are the error
cases; `0x100000000 / difficulty`, the elapsed-time clamps, the
hysteresis band, the inversion back to difficulty units, `>>> 0`, and the
`Math.min`/`Math.max` clamps follow the source line by line (JS float
rounding in the divisions is modelled as exact rational arithmetic; the
final `>>> 0` and clamps are exact). -/
def Connection.retarget (pm : ℕ) (c : Connection) (max0 : ℚ) (now : ℤ) :
    Except String (Bool × Connection) :=
  if ¬ (0 < c.difficulty) then .error "Assertion failed." else
  if c.lastRetarget = -1 then .error "Assertion failed." else
  let c1 := { c with submissions := c.submissions + 1 }
  if c1.submissions % pm = 0 then
    let target : ℚ := ((c1.submissions : ℚ) / (pm : ℚ)) * 60000
    let actual0 : ℚ := ((now - c.lastRetarget : ℤ) : ℚ)
    let diff0 : ℚ := 4294967296 / c.difficulty
    let max1 : ℚ := if 4294967295 < max0 then 4294967295 else max0
    if |target - actual0| ≤ 5000 then .ok (false, c1)
    else
      let actual1 : ℚ := if actual0 < target / 4 then target / 4 else actual0
      let actual2 : ℚ := if target * 4 < actual1 then target * 4 else actual1
      let d1 : ℚ := diff0 * actual2 / target
      let d2 : ℚ := 4294967296 / d1
      let d3 : ℚ := (jsToUint32 d2 : ℕ)
      let d4 : ℚ := min max1 d3
      let d5 : ℚ := max 1 d4
      .ok (true, Connection.setDifficulty c1 d5)
  else .ok (false, c1)

/-- The spec's clamp of the elapsed time into
`[targetElapsed/4, targetElapsed*4]`. -/
def clampRat (lo hi x : ℚ) : ℚ :=
  max lo (min hi x)

/-! ## FrameDecoder: `Connection.feed` (primitives.js lines 164-217) -/

/-- Outcome of one `feed` call: the size failure, the foreign-protocol
(HTTP) signal, or normal line extraction. -/
inductive FeedOutcome where
  | tooMuchData
  | foreignProtocol
  | processed
deriving DecidableEq

/-- The fixed HTTP response of `Connection.redirect` (lines 164-184):
`res.join("\r\n")` for the literal eight-element array of the source. -/
def redirectResponse (host port : String) : String :=
  "HTTP/1.1 200 OK\r\nX-Stratum: stratum+tcp://" ++ host ++ ":" ++ port ++
  "\r\nConnection: Close\r\nContent-Type: application/json; charset=utf-8" ++
  "\r\nContent-Length: 38\r\n\r\n\r\n" ++
  "\x7b\"error\":null,\"result\":false,\"id\":0\x7d"

/-- Whether `pat` occurs as a contiguous run inside `l`. -/
def hasSubstr (pat : List Char) (l : List Char) : Bool :=
  l.tails.any (fun t => pat.isPrefixOf t)

/-- Model of `/HTTP\/1\.1/i.test(s)`: the unanchored pattern is the literal string
`HTTP/1.1` (both dots escaped), case-insensitively, anywhere in `s`. -/
def containsHTTP11 (s : String) : Bool :=
  hasSubstr "http/1.1".data (s.data.map Char.toLower)

/-- Split on single newline characters.  The source splits on `/\n+/`;
a run of newlines differs from repeated single newlines only by empty
segments, which the packet loop skips (`line.length === 0 continue`), and
the retained trailing segment (the text after the last newline) is the
same either way. -/
def splitNL : List Char → List (List Char)
  | [] => [[]]
  | c :: rest =>
    if c = '\n' then [] :: splitNL rest
    else
      match splitNL rest with
      | [] => [[c]]
      | h :: t => (c :: h) :: t

/-- The packet loop of `feed` (lines 204-216): skip empty lines, emit a
`"packet"` event per line that `ClientPacket.fromRaw` accepts, emit an
`"error"` event per line it rejects.  `fromRaw` is `JSON.parse` (a
builtin) plus envelope checks; whether a given line parses is abstracted
as the predicate `parseOk`. -/
def processLines (parseOk : String → Bool) (c : Connection) :
    List String → Connection
  | [] => c
  | l :: rest =>
    if l.length = 0 then processLines parseOk c rest
    else if parseOk l then
      processLines parseOk { c with packets := c.packets ++ [l] } rest
    else processLines parseOk (Connection.errorEvent c) rest

/-- Model of `Connection.feed(data)` (lines 186-217): append the decoded text to
the retained buffer; destroy on 100,000 or more buffered characters;
redirect-and-destroy when the buffer matches `/HTTP\/1\.1/i`; otherwise
strip carriage returns, split on newlines, retain the trailing partial
line and run the packet loop on the complete lines. -/
def Connection.feed (parseOk : String → Bool) (host port : String)
    (c : Connection) (data : String) : FeedOutcome × Connection :=
  let c0 := { c with recv := c.recv ++ data }
  if 100000 ≤ c0.recv.length then
    (.tooMuchData, Connection.destroy (Connection.errorEvent c0))
  else if containsHTTP11 c0.recv then
    (.foreignProtocol,
     Connection.destroy (Connection.write c0 (redirectResponse host port)))
  else
    let stripped := c0.recv.data.filter (fun ch => ch ≠ '\r')
    let parts := splitNL stripped
    let newRecv : String := ⟨parts.getLastD []⟩
    let lines : List String := parts.dropLast.map (fun l => ⟨l⟩)
    (.processed, processLines parseOk { c0 with recv := newRecv } lines)

/-- A well-formed subscribe request line: valid JSON, numeric `id`,
`method` a string of length ≤ 50 — accepted by `ClientPacket.fromRaw`. -/
def subLine : String :=
  "\x7b\"id\":1,\"method\":\"mining.subscribe\",\"params\":[]\x7d"

/-- A parse predicate consistent with `ClientPacket.fromRaw` on the one
line the counterexample feeds: `fromRaw` accepts `subLine`. -/
def parseOk0 : String → Bool :=
  fun l => l == subLine

/-- A 100,000-character accumulation whose first 99,999 characters form a
complete newline-terminated line. -/
def bigLine : String :=
  String.mk (List.replicate 99999 'a' ++ ['\n'])

/-- The concrete connection used by the retarget witnesses: difficulty
1000, retarget clock at time 0. -/
def cRt : Connection :=
  { initConn with difficulty := 1000, lastRetarget := 0 }

/-- The `mining.notify` payload of the concrete job `job0`. -/
def payload0 : List JVal :=
  [.str "job0000000000", .str "", .str "", .str "", .strList [],
   .obj "steps", .str "", .str "", .str "",
   .str "00000000", .str "00000000", .str "00000000", .bool false]

/-- A connection with a staged pending difficulty of 5, used by the
`sendJob` witness. -/
def c6a : Connection :=
  { initConn with nextDifficulty := 5 }

/-! ## Theorems: claims C1 and C2 -/

/-- Model of `util.isHex` accepts no string at all: the regex part demands exactly
one character while the length part demands an even number of characters. -/
theorem util.isHex_eq_false (s : String) : util.isHex s = false := by
  obtain ⟨l⟩ := s
  match l with
  | [] => rfl
  | [c] =>
    simp only [util.isHex, util.reHexSingle, String.length]
    rfl
  | c :: d :: t =>
    simp [util.isHex, util.reHexSingle]

/-- Claim C2 — `util.isHex` returns `false` for every input string (its two
conjuncts, even length and a full match of the single-character pattern
`[0-9a-f]`, are jointly unsatisfiable); consequently `util.isSID` rejects
every string, and `Submission.fromPacket` never accepts a `mining.submit`
params list: every call reaches an isHex-guarded assert (or an earlier
one) and fails. -/
theorem isHex_never_accepts_and_no_submission_parses :
    (∀ s : String, util.isHex s = false) ∧
    (∀ s : String, util.isSID s = false) ∧
    (∀ ps : List JSParam, ∀ sub : Submission,
      Submission.fromPacket ps ≠ .ok sub) := by
  refine ⟨util.isHex_eq_false, ?_, ?_⟩
  · intro s
    simp [util.isSID, util.isHex_eq_false]
  · intro ps sub
    unfold Submission.fromPacket
    simp only [util.isHex_eq_false]
    repeat' split <;> try simp_all

/-- Claim C1 — the claim fails on the code: a `mining.submit` params list
whose five fields satisfy every constraint the claim states (username of
1..100 characters, job id of 12..21 characters, nonce2 of exactly
`NONCE_SIZE*2 = 8` hex digits, timestamp of exactly 8 hex digits, primary
nonce a hex string) is nevertheless rejected by the decoder, with the
nonce2 validation error, because `util.isHex` is unsatisfiable.  The spec
is clearly the intent (the source checks `length === 8` and then `isHex`,
a check that would otherwise be dead) and the code a slip. -/
theorem fromPacket_rejects_wellformed_submit :
    (util.isUsername "alice" = true ∧
     util.isJob "job123456789" = true ∧
     "00112233".length = NONCE_SIZE * 2 ∧ specHex "00112233" = true ∧
     "5e9f0000".length = 8 ∧ specHex "5e9f0000" = true ∧
     specHex "1234" = true) ∧
    Submission.fromPacket
      [.str "alice", .str "job123456789", .str "00112233",
       .str "5e9f0000", .str "1234"] = .error "Nonce2 must be a string." := by
  constructor
  · refine ⟨by decide, by decide, by decide, by decide, by decide, by decide, by decide⟩
  · rfl

/-! ## Theorems: claim C3 (duplicate-share detection) -/

/-- Model of `Job.insert` always leaves the seen-set with the fingerprint present:
a duplicate leaves the set as it was, a fresh fingerprint is added. -/
theorem Job.insert_submissions (j : Job) (p : ℕ) :
    ((Job.insert j p).2).submissions = Insert.insert p j.submissions := by
  unfold Job.insert
  split
  · next hmem => simp [Finset.insert_eq_self.mpr hmem]
  · rfl

/-- After any run of `recordSubmission` calls, the seen-set is the initial
set together with every fingerprint of the run — independent of order and
multiplicity. -/
theorem Job.insertRun_submissions (ps : List ℕ) (j : Job) :
    (Job.insertRun j ps).submissions = j.submissions ∪ ps.toFinset := by
  induction ps generalizing j with
  | nil => simp [Job.insertRun]
  | cons p rest ih =>
    have h1 : Job.insertRun j (p :: rest) = Job.insertRun (Job.insert j p).2 rest := by
      simp [Job.insertRun]
    rw [h1, ih, Job.insert_submissions]
    rw [List.toFinset_cons, Finset.insert_union, Finset.union_insert]

/-- Claim C3 — on a job whose seen-set started empty and has absorbed an
arbitrary interleaving `ps` of prior submissions (from any connections),
`Job.insert` (the spec's `Job.recordSubmission`) returns `true` exactly
when the fingerprint has not been submitted before; a `true` call adds the
fingerprint to the seen-set and a `false` call leaves the job unchanged. -/
theorem recordSubmission_once_per_fingerprint (j0 : Job) (ps : List ℕ) (h : ℕ)
    (h0 : j0.submissions = ∅) :
    (((Job.insertRun j0 ps).insert h).1 = true ↔ h ∉ ps) ∧
    (((Job.insertRun j0 ps).insert h).1 = true →
      ((Job.insertRun j0 ps).insert h).2.submissions
        = Insert.insert h (Job.insertRun j0 ps).submissions) ∧
    (((Job.insertRun j0 ps).insert h).1 = false →
      ((Job.insertRun j0 ps).insert h).2 = Job.insertRun j0 ps) := by
  have hs : (Job.insertRun j0 ps).submissions = ps.toFinset := by
    rw [Job.insertRun_submissions, h0, Finset.empty_union]
  refine ⟨?_, ?_, ?_⟩
  · unfold Job.insert
    split
    · next hmem =>
      rw [hs] at hmem
      simp [List.mem_toFinset.mp hmem]
    · next hnot =>
      rw [hs] at hnot
      have hnp : h ∉ ps := fun hh => hnot (List.mem_toFinset.mpr hh)
      simp [hnp]
  · intro _
    exact Job.insert_submissions (Job.insertRun j0 ps) h
  · intro hf
    unfold Job.insert at hf ⊢
    split at hf
    · next hmem => simp [hmem]
    · simp at hf

/-- Witness for C3: on a fresh job, after prior submissions `[5, 7]`, the
fingerprint `5` is a duplicate (returns `false`, job unchanged) while the
characterization of `recordSubmission` holds as stated. -/
theorem recordSubmission_once_per_fingerprint_witness :
    (((Job.insertRun job0 [5, 7]).insert 5).1 = true ↔ (5 : ℕ) ∉ [5, 7]) ∧
    (((Job.insertRun job0 [5, 7]).insert 5).1 = true →
      ((Job.insertRun job0 [5, 7]).insert 5).2.submissions
        = Insert.insert 5 (Job.insertRun job0 [5, 7]).submissions) ∧
    (((Job.insertRun job0 [5, 7]).insert 5).1 = false →
      ((Job.insertRun job0 [5, 7]).insert 5).2 = Job.insertRun job0 [5, 7]) :=
  recordSubmission_once_per_fingerprint job0 [5, 7] 5 rfl

/-! ## Theorems: claim C7 (commit at most once) -/

/-- Claim C7 — `Job.commit` succeeds at most once per job: on an
uncommitted job the call marks it committed and delegates the share to
the work source's commit, and on any committed job (in particular the
state produced by the first successful call) it raises
"Already committed." rather than being ignored. -/
theorem commit_at_most_once (ac : ℕ → ℕ) (j : Job) (share share2 : ℕ)
    (h : j.committed = false) :
    Job.commit ac j share = .ok ({ j with committed := true }, ac share) ∧
    ({ j with committed := true } : Job).committed = true ∧
    (∀ j2 : Job, j2.committed = true →
      Job.commit ac j2 share2 = .error "Already committed.") := by
  refine ⟨?_, rfl, ?_⟩
  · simp [Job.commit, h]
  · intro j2 h2
    simp [Job.commit, h2]

/-- Witness for C7 at the concrete fresh job `job0`. -/
theorem commit_at_most_once_witness :
    Job.commit (fun n => n + 1) job0 3 = .ok ({ job0 with committed := true }, 4) ∧
    ({ job0 with committed := true } : Job).committed = true ∧
    (∀ j2 : Job, j2.committed = true →
      Job.commit (fun n => n + 1) j2 9 = .error "Already committed.") :=
  commit_at_most_once (fun n => n + 1) job0 3 9 rfl

/-! ## Theorems: claim C10 (notify payload shape) -/

/-- Claim C10 — whenever `Job.toJSON` produces the `mining.notify` params
array, that array has exactly 13 elements and its last element — the
clean-jobs flag — is the literal `false`, for every job and every leaf
hash function. -/
theorem toJSON_thirteen_fields_clean_false (hl : ByteBuf → ByteBuf) (j : Job)
    (out : List JVal) (h : Job.toJSON hl j = some out) :
    out.length = 13 ∧ out.getLast? = some (.bool false) := by
  unfold Job.toJSON at h
  split at h
  · next =>
    rw [Option.some_inj] at h
    subst h
    exact ⟨rfl, rfl⟩
  · exact absurd h (by simp)

/-- Witness for C10: the concrete job `job0` serializes, and the claim's
conclusions hold for its payload. -/
theorem toJSON_thirteen_fields_clean_false_witness :
    ([JVal.str "job0000000000", .str "", .str "", .str "", .strList [],
      .obj "steps", .str "", .str "", .str "",
      .str "00000000", .str "00000000", .str "00000000",
      .bool false].length = 13 ∧
     ([JVal.str "job0000000000", .str "", .str "", .str "", .strList [],
       .obj "steps", .str "", .str "", .str "",
       .str "00000000", .str "00000000", .str "00000000",
       .bool false].getLast? = some (.bool false))) :=
  toJSON_thirteen_fields_clean_false (fun b => b) job0 _ rfl

/-! ## Theorems: claim C4 (retarget difficulty bounds) -/

/-- The `max` clamp of `retarget` equals `min max0 (2^32 - 1)`. -/
theorem retarget_max_clamp (max0 : ℚ) :
    (if 4294967295 < max0 then (4294967295 : ℚ) else max0)
      = min max0 4294967295 := by
  split
  · next hgt => exact (min_eq_right (le_of_lt hgt)).symm
  · next hle =>
    push_neg at hle
    exact (min_eq_left hle).symm

/-- Claim C4 — whenever `Connection.retarget` stages a new difficulty
(returns `true`), the staged pending difficulty lies in
`[1, capDifficulty]`, where `capDifficulty` is the `max` argument first
clamped to `2^32 - 1` — for every elapsed time (every `now` and
`lastRetarget`), provided the cap is at least 1. -/
theorem retarget_staged_difficulty_bounds (pm : ℕ) (c : Connection)
    (max0 : ℚ) (now : ℤ) (c' : Connection)
    (hmax : 1 ≤ max0)
    (h : Connection.retarget pm c max0 now = .ok (true, c')) :
    1 ≤ c'.nextDifficulty ∧ c'.nextDifficulty ≤ min max0 4294967295 := by
  simp only [Connection.retarget, retarget_max_clamp, Connection.setDifficulty] at h
  repeat' split at h
  all_goals simp at h
  all_goals subst h
  all_goals
    exact ⟨le_max_left _ _, max_le (le_min hmax (by norm_num)) (min_le_left _ _)⟩

/-- Evaluation of `retarget` at the witness input: with `pm = 1`, difficulty
1000, cap 100000 and 200000 ms elapsed since the last retarget, a
retarget is staged with pending difficulty 300. -/
theorem retarget_eval_200000 :
    Connection.retarget 1 cRt 100000 200000
      = .ok (true, { cRt with submissions := 1, nextDifficulty := 300 }) := by
  simp only [Connection.retarget, Connection.setDifficulty, cRt, initConn,
    jsToUint32, jsTrunc]
  norm_num [min_def, max_def]
  rfl

/-- Witness for C4: with `pm = 1`, cap 100000, and 200000 ms elapsed,
`retarget` stages difficulty 300, which lies in `[1, 100000]`. -/
theorem retarget_staged_difficulty_bounds_witness :
    1 ≤ ({ cRt with submissions := 1, nextDifficulty := 300 } : Connection).nextDifficulty ∧
    ({ cRt with submissions := 1, nextDifficulty := 300 } : Connection).nextDifficulty
      ≤ min 100000 4294967295 :=
  retarget_staged_difficulty_bounds 1 cRt 100000 200000
    { cRt with submissions := 1, nextDifficulty := 300 }
    (by norm_num) retarget_eval_200000

/-! ## Theorems: claim C5 (hysteresis band) -/

/-- At any decision point the target elapsed time is at least one
minute, so an actual elapsed time that lands in the hysteresis band after
the spec's clamp into `[target/4, target*4]` was never moved by the
clamp: the band is far narrower than the distance from `target` to either
clamp boundary. -/
theorem hysteresis_clamp_band (target actual : ℚ) (htgt : 60000 ≤ target)
    (hband : |target - clampRat (target / 4) (target * 4) actual| ≤ 5000) :
    |target - actual| ≤ 5000 := by
  rcases lt_or_le actual (target / 4) with hlow | hge
  · exfalso
    have hcl : clampRat (target / 4) (target * 4) actual = target / 4 := by
      unfold clampRat
      rw [min_eq_right (le_of_lt (lt_of_lt_of_le hlow (by linarith))),
        max_eq_left (le_of_lt hlow)]
    rw [hcl, abs_of_nonneg (by linarith : (0:ℚ) ≤ target - target / 4)] at hband
    linarith
  · rcases lt_or_le (target * 4) actual with hhigh | hle
    · exfalso
      have hcl : clampRat (target / 4) (target * 4) actual = target * 4 := by
        unfold clampRat
        rw [min_eq_left (le_of_lt hhigh),
          max_eq_right (by linarith : target / 4 ≤ target * 4)]
      rw [hcl, abs_sub_comm,
        abs_of_nonneg (by linarith : (0:ℚ) ≤ target * 4 - target)] at hband
      linarith
    · have hcl : clampRat (target / 4) (target * 4) actual = actual := by
        unfold clampRat
        rw [min_eq_right hle, max_eq_right hge]
      rwa [hcl] at hband

/-- Claim C5 — at every retarget decision point (the post-increment
submission count is a positive multiple of `pm`), if the target elapsed
time `(n/pm)·60000` ms is within 5000 ms of the actual elapsed time
clamped into `[target/4, target*4]` (the spec's step order), then no
retarget occurs: `retarget` returns `false`, no pending difficulty is
staged, and the only state change is the incremented submission
counter. -/
theorem retarget_hysteresis_no_change (pm : ℕ) (c : Connection)
    (max0 : ℚ) (now : ℤ)
    (hpm : 0 < pm)
    (hdiff : 0 < c.difficulty)
    (hlr : c.lastRetarget ≠ -1)
    (hdec : (c.submissions + 1) % pm = 0)
    (hband : |((c.submissions + 1 : ℕ) : ℚ) / (pm : ℚ) * 60000 -
        clampRat (((c.submissions + 1 : ℕ) : ℚ) / (pm : ℚ) * 60000 / 4)
          (((c.submissions + 1 : ℕ) : ℚ) / (pm : ℚ) * 60000 * 4)
          (((now - c.lastRetarget : ℤ)) : ℚ)| ≤ 5000) :
    Connection.retarget pm c max0 now
      = .ok (false, { c with submissions := c.submissions + 1 }) := by
  have hpmQ : (0:ℚ) < (pm : ℚ) := by exact_mod_cast hpm
  have hn : (pm : ℚ) ≤ ((c.submissions + 1 : ℕ) : ℚ) := by
    exact_mod_cast Nat.le_of_dvd (Nat.succ_pos _) (Nat.dvd_of_mod_eq_zero hdec)
  have htgt : (60000:ℚ) ≤ ((c.submissions + 1 : ℕ) : ℚ) / (pm : ℚ) * 60000 := by
    have h1 : (1:ℚ) ≤ ((c.submissions + 1 : ℕ) : ℚ) / (pm : ℚ) :=
      (one_le_div hpmQ).mpr hn
    nlinarith
  have hba := hysteresis_clamp_band
    (((c.submissions + 1 : ℕ) : ℚ) / (pm : ℚ) * 60000)
    (((now - c.lastRetarget : ℤ)) : ℚ) htgt hband
  simp only [Connection.retarget]
  rw [if_neg (not_not_intro hdiff), if_neg hlr]
  rw [if_pos hdec, if_pos hba]

/-- Witness for C5: with `pm = 1` and exactly 60000 ms elapsed, the
decision point lands in the hysteresis band and nothing changes but the
submission counter. -/
theorem retarget_hysteresis_no_change_witness :
    Connection.retarget 1 cRt 7 60000
      = .ok (false, { cRt with submissions := cRt.submissions + 1 }) :=
  retarget_hysteresis_no_change 1 cRt 7 60000
    (by norm_num) (by norm_num [cRt, initConn]) (by norm_num [cRt, initConn])
    (by norm_num [cRt, initConn])
    (by norm_num [cRt, initConn, clampRat, min_def, max_def])

/-! ## Theorems: claim C6 (sendJob flushes pending difficulty) -/

/-- Claim C6 — with a staged (positive) pending difficulty, `sendJob`
first sends the distinct `mining.set_difficulty` message carrying the
pending value, resets the submission counter to 0 and the retarget clock
to the current time, makes the pending value current, clears the pending
slot back to `-1`, and only then sends the `mining.notify` payload; with
no pending difficulty only the `mining.notify` message is sent and the
difficulty state (current, pending, counter, clock) is untouched. -/
theorem sendJob_flushes_pending (hl : ByteBuf → ByteBuf) (c : Connection)
    (now : ℤ) (j : Job) (payload : List JVal)
    (hd : c.destroyed = false) (hp : Job.toJSON hl j = some payload) :
    (c.nextDifficulty ≠ -1 → 0 < c.nextDifficulty →
      Connection.sendJob hl c now j = .ok { c with
        difficulty := c.nextDifficulty, nextDifficulty := -1,
        submissions := 0, lastRetarget := now,
        sent := c.sent ++ [.setDifficulty c.nextDifficulty, .notify payload] }) ∧
    (c.nextDifficulty = -1 →
      Connection.sendJob hl c now j
        = .ok { c with sent := c.sent ++ [.notify payload] }) := by
  constructor
  · intro h1 h2
    simp [Connection.sendJob, Connection.sendDifficulty, Connection.sendMsg,
      h1, h2, hd, hp]
  · intro h1
    simp [Connection.sendJob, Connection.sendMsg, h1, hd, hp]

/-- Witness for C6: on a connection with pending difficulty 5 the flush
happens as described, and on the fresh connection (pending `-1`) only the
notify is sent. -/
theorem sendJob_flushes_pending_witness :
    (Connection.sendJob (fun b => b) c6a 777 job0
      = .ok { c6a with
          difficulty := 5, nextDifficulty := -1,
          submissions := 0, lastRetarget := 777,
          sent := [.setDifficulty 5, .notify payload0] }) ∧
    (Connection.sendJob (fun b => b) initConn 777 job0
      = .ok { initConn with sent := [.notify payload0] }) := by
  constructor
  · exact (sendJob_flushes_pending (fun b => b) c6a 777 job0 payload0
      rfl rfl).1 (by decide) (by decide)
  · exact (sendJob_flushes_pending (fun b => b) initConn 777 job0 payload0
      rfl rfl).2 rfl

/-! ## Theorems: claim C8 (HTTP detection and redirect) -/

/-- Claim C8, amended — `feed` signals foreign protocol exactly when the
current unconsumed buffer (retained partial line plus the new data)
matches `/HTTP\/1\.1/i` and is below the size cap — regardless of whether
valid protocol lines were found earlier, since consumed lines leave the
buffer and the test reruns on every call; on that signal the fixed
redirect response (HTTP/1.1 200 OK with the `X-Stratum` header, a
`Connection: Close` header and the JSON body) is written and the
connection is destroyed. -/
theorem feed_foreign_protocol_signal (p : String → Bool) (host port : String)
    (c : Connection) (data : String) (hd : c.destroyed = false) :
    ((Connection.feed p host port c data).1 = .foreignProtocol ↔
      (c.recv ++ data).length < 100000 ∧
        containsHTTP11 (c.recv ++ data) = true) ∧
    ((Connection.feed p host port c data).1 = .foreignProtocol →
      (Connection.feed p host port c data).2.written
          = c.written ++ redirectResponse host port ∧
      (Connection.feed p host port c data).2.destroyed = true) := by
  by_cases h1 : 100000 ≤ (c.recv ++ data).length
  · have h1' : 100000 ≤ c.recv.length + data.length := by
      rwa [String.length_append] at h1
    have hfeed : (Connection.feed p host port c data).1 = .tooMuchData := by
      simp [Connection.feed, h1']
    rw [hfeed]
    constructor
    · constructor
      · intro hco
        exact absurd hco (by simp)
      · rintro ⟨hlt, -⟩
        omega
    · intro hco
      exact absurd hco (by simp)
  · have hlt : (c.recv ++ data).length < 100000 := Nat.lt_of_not_le h1
    have h1' : ¬ 100000 ≤ c.recv.length + data.length := by
      rwa [String.length_append] at h1
    by_cases h2 : containsHTTP11 (c.recv ++ data) = true
    · have hfeed : Connection.feed p host port c data
          = (.foreignProtocol,
             Connection.destroy (Connection.write
               { c with recv := c.recv ++ data }
               (redirectResponse host port))) := by
        simp [Connection.feed, h1', h2]
      rw [hfeed]
      constructor
      · simp [h2]
        omega
      · intro _
        constructor
        · simp [Connection.destroy, Connection.write, hd]
        · simp [Connection.destroy, Connection.write, hd]
    · have hfeed : (Connection.feed p host port c data).1 = .processed := by
        simp [Connection.feed, h1', h2]
      rw [hfeed]
      constructor
      · simp [h2]
      · intro hco
        exact absurd hco (by simp)

/-- Witness for C8: a fresh connection fed `"GET / HTTP/1.1\r\n\r\n"`
satisfies the signal characterization and the redirect-then-destroy
behaviour. -/
theorem feed_foreign_protocol_signal_witness :
    ((Connection.feed parseOk0 "pool.example" "3008" initConn
        "GET / HTTP/1.1\r\n\r\n").1 = .foreignProtocol ↔
      (initConn.recv ++ "GET / HTTP/1.1\r\n\r\n").length < 100000 ∧
        containsHTTP11 (initConn.recv ++ "GET / HTTP/1.1\r\n\r\n") = true) ∧
    ((Connection.feed parseOk0 "pool.example" "3008" initConn
        "GET / HTTP/1.1\r\n\r\n").1 = .foreignProtocol →
      (Connection.feed parseOk0 "pool.example" "3008" initConn
        "GET / HTTP/1.1\r\n\r\n").2.written
          = initConn.written ++ redirectResponse "pool.example" "3008" ∧
      (Connection.feed parseOk0 "pool.example" "3008" initConn
        "GET / HTTP/1.1\r\n\r\n").2.destroyed = true) :=
  feed_foreign_protocol_signal parseOk0 "pool.example" "3008" initConn
    "GET / HTTP/1.1\r\n\r\n" rfl

/-- Counterexample to C8 as stated: a connection that has already
consumed a valid protocol line (a well-formed `mining.subscribe`
request, accepted by the parser and emitted as a packet) is nevertheless
redirected when HTTP-probe bytes arrive later — the decoder retests the
buffer on every call and keeps no memory of earlier valid lines. -/
theorem feed_redirect_after_valid_line :
    ((Connection.feed parseOk0 "pool.example" "3008" initConn
        (subLine ++ "\n")).1 = .processed) ∧
    ((Connection.feed parseOk0 "pool.example" "3008" initConn
        (subLine ++ "\n")).2.packets = [subLine]) ∧
    ((Connection.feed parseOk0 "pool.example" "3008" initConn
        (subLine ++ "\n")).2.destroyed = false) ∧
    ((Connection.feed parseOk0 "pool.example" "3008"
        (Connection.feed parseOk0 "pool.example" "3008" initConn
          (subLine ++ "\n")).2
        "GET / HTTP/1.1\r\n\r\n").1 = .foreignProtocol) := by
  decide

/-! ## Theorems: claim C9 (buffer size cap) -/

/-- Claim C9, amended — `feed` fails for oversized buffering exactly when
the accumulated unconsumed text (the retained partial line plus the new
data) reaches at least 100,000 characters, a check made before any line
extraction — so complete newline-terminated lines inside the current
accumulation do not prevent the failure, while lines consumed by earlier
calls no longer occupy the buffer and do not count.  On the failure the
connection is destroyed with nothing consumed and nothing written. -/
theorem feed_size_cap (p : String → Bool) (host port : String)
    (c : Connection) (data : String) (hd : c.destroyed = false) :
    ((Connection.feed p host port c data).1 = .tooMuchData ↔
      100000 ≤ (c.recv ++ data).length) ∧
    ((Connection.feed p host port c data).1 = .tooMuchData →
      (Connection.feed p host port c data).2.destroyed = true ∧
      (Connection.feed p host port c data).2.recv = c.recv ++ data ∧
      (Connection.feed p host port c data).2.packets = c.packets ∧
      (Connection.feed p host port c data).2.written = c.written) := by
  by_cases h1 : 100000 ≤ (c.recv ++ data).length
  · have h1' : 100000 ≤ c.recv.length + data.length := by
      rwa [String.length_append] at h1
    have hfeed : Connection.feed p host port c data
        = (.tooMuchData,
           Connection.destroy (Connection.errorEvent
             { c with recv := c.recv ++ data })) := by
      simp [Connection.feed, h1']
    rw [hfeed]
    constructor
    · simpa using h1
    · intro _
      refine ⟨?_, ?_, ?_, ?_⟩ <;>
        simp [Connection.destroy, Connection.errorEvent, hd]
  · have h1' : ¬ 100000 ≤ c.recv.length + data.length := by
      rwa [String.length_append] at h1
    have hnot : (Connection.feed p host port c data).1 ≠ .tooMuchData := by
      by_cases h2 : containsHTTP11 (c.recv ++ data) = true
      · simp [Connection.feed, h1', h2]
      · simp [Connection.feed, h1', h2]
    constructor
    · constructor
      · intro hco
        exact absurd hco hnot
      · intro hle
        exact absurd hle h1
    · intro hco
      exact absurd hco hnot

/-- Witness for C9: the characterization applied to the fresh connection
and a small feed. -/
theorem feed_size_cap_witness :
    ((Connection.feed parseOk0 "pool.example" "3008" initConn "hello").1
        = .tooMuchData ↔ 100000 ≤ (initConn.recv ++ "hello").length) ∧
    ((Connection.feed parseOk0 "pool.example" "3008" initConn "hello").1
        = .tooMuchData →
      (Connection.feed parseOk0 "pool.example" "3008" initConn "hello").2.destroyed = true ∧
      (Connection.feed parseOk0 "pool.example" "3008" initConn "hello").2.recv
          = initConn.recv ++ "hello" ∧
      (Connection.feed parseOk0 "pool.example" "3008" initConn "hello").2.packets
          = initConn.packets ∧
      (Connection.feed parseOk0 "pool.example" "3008" initConn "hello").2.written
          = initConn.written) :=
  feed_size_cap parseOk0 "pool.example" "3008" initConn "hello" rfl

/-- Counterexample to C9 as stated: an accumulation of exactly 100,000
characters — not more than the 100,000-byte cap — whose first 99,999
characters form a complete newline-terminated line, still destroys the
connection: the size check runs before line extraction, so the complete
line neither is consumed nor prevents the failure. -/
theorem feed_size_destroys_at_exact_cap :
    (initConn.recv ++ bigLine).length = 100000 ∧
    ¬ (100000 < (initConn.recv ++ bigLine).length) ∧
    bigLine.data.getLast? = some '\n' ∧
    (Connection.feed parseOk0 "pool.example" "3008" initConn bigLine).1
        = .tooMuchData ∧
    (Connection.feed parseOk0 "pool.example" "3008" initConn bigLine).2.destroyed
        = true ∧
    (Connection.feed parseOk0 "pool.example" "3008" initConn bigLine).2.packets
        = [] := by
  have hlen : (initConn.recv ++ bigLine).length = 100000 := by
    show (List.replicate 99999 'a' ++ ['\n']).length = 100000
    rw [List.length_append, List.length_replicate]
    rfl
  have hlen' : 100000 ≤ initConn.recv.length + bigLine.length := by
    rw [← String.length_append, hlen]
  have hfeed : Connection.feed parseOk0 "pool.example" "3008" initConn bigLine
      = (.tooMuchData,
         Connection.destroy (Connection.errorEvent
           { initConn with recv := initConn.recv ++ bigLine })) := by
    simp [Connection.feed, hlen']
  refine ⟨hlen, by omega, ?_, ?_, ?_, ?_⟩
  · show (List.replicate 99999 'a' ++ ['\n']).getLast? = some '\n'
    rw [List.getLast?_concat]
  · rw [hfeed]
  · rw [hfeed]
    simp [Connection.destroy, Connection.errorEvent, initConn]
  · rw [hfeed]
    simp [Connection.destroy, Connection.errorEvent, initConn]

end Hstratum
